import Mathlib

/-!
# Shallow embedding of the traffic-light coordination core of `src/main.py`

We model the class `TrafficLightManager` (lines 12–93), the message-handling
and teardown branches of `websocket_endpoint` (lines 104–123) and the
`/status` route `get_status` (lines 126–132).

Modelling conventions:
* A connection is an opaque handle; we represent it by a natural number.
  The trace layer `run` mints handles in join order (each `Op.connect` uses
  the next fresh number), mirroring the fact that the transport layer hands
  the manager a brand-new `WebSocket` object per session.
* Wall-clock timestamps (`datetime.now()...`) are omitted from messages; no
  claim concerns their value.
* A fallible `send_text` is modelled by an oracle `ok : Conn → Bool` saying
  which connections currently accept a send.  Where the code swallows a
  failure with no state effect (`except: pass`), the emitted message list is
  independent of the oracle and we record the message as emitted; where a
  failure has a state effect (`broadcast_color_change`), the oracle is
  threaded through explicitly.
-/

/-- Opaque connection handle (join-sequence number at the trace layer). -/
abbrev Conn := Nat

/-- Outbound wire messages built in `main.py` (timestamp fields omitted). -/
inductive Msg where
  | stateUpdate (color : String) (is_ctrl : Bool) (controller_id : Option String)
  | colorChange (color : String)
  | userUpdate (total_users : Nat) (controller_id : Option String)
  deriving DecidableEq

/-- The mutable fields of `TrafficLightManager` (`__init__`, lines 13–17). -/
structure State where
  active_connections : List Conn
  controller : Option Conn
  current_color : String
  controller_id : Option String
  deriving DecidableEq

/-- The freshly constructed manager (`__init__`). -/
def initState : State := ⟨[], none, "none", none⟩

/-- `broadcast_user_update` (lines 75–86): one `user_update` payload is
computed, then sent to every registered connection in turn; a failed send is
swallowed (`except: pass`) with no state effect, so the emitted messages do
not depend on send outcomes. -/
def broadcast_user_update (s : State) : List (Conn × Msg) :=
  s.active_connections.map fun c =>
    (c, Msg.userUpdate s.active_connections.length s.controller_id)

/-- `send_state_update` (lines 48–59): the `state_update` message pushed to
one connection (failure swallowed, no state effect). -/
def send_state_update (s : State) (ws : Conn) (is_ctrl : Bool) : Conn × Msg :=
  (ws, Msg.stateUpdate s.current_color is_ctrl s.controller_id)

/-- `TrafficLightManager.connect` (lines 19–30): register the connection,
make it controller if none exists, send it a `state_update`, then broadcast a
`user_update`.  Returns (new state, emitted messages, `is_controller`). -/
def connect (s : State) (ws : Conn) (user_id : String) :
    State × List (Conn × Msg) × Bool :=
  if s.controller.isNone then
    let s1 : State :=
      { s with active_connections := s.active_connections ++ [ws],
               controller := some ws, controller_id := some user_id }
    (s1, send_state_update s1 ws true :: broadcast_user_update s1, true)
  else
    let s1 : State := { s with active_connections := s.active_connections ++ [ws] }
    (s1, send_state_update s1 ws false :: broadcast_user_update s1, false)

/-- `TrafficLightManager.disconnect` (lines 32–46).  Note that on promotion
the code sets `self.controller` to the first surviving connection but leaves
`self.controller_id` cleared at `None` (lines 39 and 43 — no reassignment of
the identity).  Returns (new state, `new_controller_assigned`). -/
def disconnect (s : State) (ws : Conn) : State × Bool :=
  if ws ∈ s.active_connections then
    if s.controller = some ws then
      match s.active_connections.erase ws with
      | [] =>
          ({ s with active_connections := [], controller := none,
                    controller_id := none }, false)
      | c :: rest =>
          ({ s with active_connections := c :: rest, controller := some c,
                    controller_id := none }, true)
    else ({ s with active_connections := s.active_connections.erase ws }, false)
  else (s, false)

/-- The fan-out loop of `broadcast_color_change` (lines 69–73), with CPython
`for`-over-list semantics made explicit: the loop keeps an index `i` into the
live list; on a failed send the current element is removed
(`list.remove`, first occurrence) and the index still advances, so the
element that slid into position `i` is never visited.  `fuel` bounds the
remaining iterations; the list never grows, so `l.length` steps always
suffice and the fuel-exhausted branch coincides with the normal exit.
Returns (final list, successfully-sent targets in iteration order). -/
def broadcastLoopAux (ok : Conn → Bool) :
    Nat → List Conn → Nat → List Conn × List Conn
  | 0, l, _ => (l, [])
  | fuel + 1, l, i =>
      if h : i < l.length then
        let c := l.get ⟨i, h⟩
        if ok c then
          let r := broadcastLoopAux ok fuel l (i + 1)
          (r.1, c :: r.2)
        else
          broadcastLoopAux ok fuel (l.erase c) (i + 1)
      else (l, [])

/-- The broadcast loop started at index 0 with sufficient fuel. -/
def broadcastLoop (ok : Conn → Bool) (l : List Conn) : List Conn × List Conn :=
  broadcastLoopAux ok l.length l 0

/-- `broadcast_color_change` (lines 61–73): assigns `current_color` first
(line 62), then fans out `color_change(color)` over the live connection list;
each successfully-sent target receives exactly that message, and a failed
target is removed from `active_connections` mid-iteration.  Returns
(new state, connections actually sent the message). -/
def broadcast_color_change (ok : Conn → Bool) (s : State) (color : String) :
    State × List Conn :=
  let r := broadcastLoop ok s.active_connections
  ({ s with current_color := color, active_connections := r.1 }, r.2)

/-- `broadcast_new_controller` (lines 88–93): if a controller exists, send it
`state_update(is_controller := true)` and every other registered connection
`state_update(is_controller := false)`. -/
def broadcast_new_controller (s : State) : List (Conn × Msg) :=
  match s.controller with
  | none => []
  | some ctrl =>
      send_state_update s ctrl true ::
        (s.active_connections.filter fun c => c != ctrl).map
          fun c => send_state_update s c false

/-- The recognized color values (line 116, in source order). -/
def valid_colors : List String := ["red", "yellow", "green", "none"]

/-- The inbound `color_change` branch of `websocket_endpoint`
(lines 113–117): only the current controller may change the color, and only
to a recognized value; otherwise nothing happens and nothing is sent. -/
def handle_color_change (ok : Conn → Bool) (s : State) (ws : Conn)
    (color : String) : State × List Conn :=
  if s.controller = some ws then
    if color ∈ valid_colors then broadcast_color_change ok s color
    else (s, [])
  else (s, [])

/-- The `WebSocketDisconnect` handler of `websocket_endpoint`
(lines 119–123): disconnect, then `broadcast_new_controller` if a promotion
happened, then `broadcast_user_update`. -/
def on_ws_disconnect (s : State) (ws : Conn) : State × List (Conn × Msg) :=
  let r := disconnect s ws
  (r.1,
    (if r.2 then broadcast_new_controller r.1 else []) ++
      broadcast_user_update r.1)

/-- The `/status` payload (lines 126–132). -/
structure Status where
  current_color : String
  total_users : Nat
  controller_id : Option String
  deriving DecidableEq

/-- `get_status` (lines 126–132): pure read of the manager state. -/
def get_status (s : State) : Status :=
  ⟨s.current_color, s.active_connections.length, s.controller_id⟩

/-- Operations the transport layer drives into the manager. -/
inductive Op where
  | connect (user_id : String)
  | disconnect (c : Conn)
  deriving DecidableEq

/-- Manager state together with the next fresh connection handle. -/
structure Sys where
  st : State
  next : Nat
  deriving DecidableEq

/-- The system at process start. -/
def initSys : Sys := ⟨initState, 0⟩

/-- One transport-driven operation: a fresh connection joining, or the
teardown of a (possibly already absent) connection. -/
def step (sys : Sys) : Op → Sys
  | Op.connect uid => ⟨(connect sys.st sys.next uid).1, sys.next + 1⟩
  | Op.disconnect c => ⟨(disconnect sys.st c).1, sys.next⟩

/-- Execute a sequence of operations from process start. -/
def run (ops : List Op) : Sys := ops.foldl step initSys

/-- Reachable-state invariant: the connection list is strictly sorted by
join order (hence duplicate-free), every handle is below the fresh counter,
the controller (when set) is registered, and the controller is unset exactly
when the list is empty. -/
def SysInv (sys : Sys) : Prop :=
  sys.st.active_connections.Pairwise (· < ·) ∧
  (∀ c ∈ sys.st.active_connections, c < sys.next) ∧
  (∀ w, sys.st.controller = some w → w ∈ sys.st.active_connections) ∧
  (sys.st.controller = none ↔ sys.st.active_connections = [])

/-! ## Helper lemmas -/

/-- `disconnect` of an unregistered connection does nothing (lines 33/46). -/
theorem disconnect_not_mem (s : State) (c : Conn)
    (h : c ∉ s.active_connections) : disconnect s c = (s, false) := by
  simp [disconnect, h]

/-- After disconnecting a registered connection, the connection list is the
original list with the first occurrence erased, in every branch. -/
theorem disconnect_conns (s : State) (c : Conn)
    (h : c ∈ s.active_connections) :
    (disconnect s c).1.active_connections = s.active_connections.erase c := by
  by_cases hcc : s.controller = some c
  · rcases herase : s.active_connections.erase c with _ | ⟨d, t⟩ <;>
      simp [disconnect, h, hcc, herase]
  · simp [disconnect, h, hcc]

/-- The invariant holds at process start. -/
theorem sysInv_initSys : SysInv initSys := by
  refine ⟨List.Pairwise.nil, ?_, ?_, ?_⟩ <;> simp [initSys, initState]

/-- The invariant is preserved by every operation. -/
theorem sysInv_step (sys : Sys) (op : Op) (h : SysInv sys) :
    SysInv (step sys op) := by
  obtain ⟨hpw, hfresh, hctl, hiff⟩ := h
  cases op with
  | connect uid =>
      cases hco : sys.st.controller with
      | none =>
          have hempty : sys.st.active_connections = [] := hiff.mp hco
          refine ⟨?_, ?_, ?_, ?_⟩ <;> simp [step, connect, hco, hempty]
      | some w =>
          have hstep : step sys (Op.connect uid) =
              Sys.mk ({ sys.st with
                  active_connections := sys.st.active_connections ++ [sys.next] })
                (sys.next + 1) := by
            simp [step, connect, hco]
          rw [hstep]
          refine ⟨?_, ?_, ?_, ?_⟩
          · refine List.pairwise_append.mpr
              ⟨hpw, List.pairwise_singleton _ _, ?_⟩
            intro a ha b hb
            simp only [List.mem_singleton] at hb
            exact hb ▸ hfresh a ha
          · intro c hc
            rcases List.mem_append.mp hc with hc | hc
            · exact Nat.lt_succ_of_lt (hfresh c hc)
            · simp only [List.mem_singleton] at hc
              exact hc ▸ Nat.lt_succ_self _
          · intro v hv
            have hv2 : v = w := by
              rw [hco] at hv
              cases hv
              rfl
            exact List.mem_append_left _ (hv2 ▸ hctl w hco)
          · simp [hco]
  | disconnect c =>
      by_cases hmem : c ∈ sys.st.active_connections
      · have hpwe : (sys.st.active_connections.erase c).Pairwise (· < ·) :=
          hpw.sublist (List.erase_sublist c sys.st.active_connections)
        have hsubset : ∀ x ∈ sys.st.active_connections.erase c,
            x ∈ sys.st.active_connections :=
          fun x hx => (List.erase_sublist c sys.st.active_connections).subset hx
        by_cases hcc : sys.st.controller = some c
        · rcases herase : sys.st.active_connections.erase c with _ | ⟨d, t⟩
          · have hstep : step sys (Op.disconnect c) =
                Sys.mk ({ sys.st with active_connections := [],
                                      controller := none,
                                      controller_id := none })
                  sys.next := by
              simp [step, disconnect, hmem, hcc, herase]
            rw [hstep]
            refine ⟨List.Pairwise.nil, ?_, ?_, ?_⟩ <;> simp
          · have hstep : step sys (Op.disconnect c) =
                Sys.mk ({ sys.st with active_connections := d :: t,
                                      controller := some d,
                                      controller_id := none })
                  sys.next := by
              simp [step, disconnect, hmem, hcc, herase]
            rw [hstep]
            refine ⟨herase ▸ hpwe, ?_, ?_, ?_⟩
            · intro x hx
              exact hfresh x (hsubset x (herase ▸ hx))
            · intro v hv
              have hv2 : v = d := by
                cases hv
                rfl
              simp [hv2]
            · simp
        · have hstep : step sys (Op.disconnect c) =
              Sys.mk (State.mk (sys.st.active_connections.erase c)
                  sys.st.controller sys.st.current_color sys.st.controller_id)
                sys.next := by
            simp [step, disconnect, hmem, hcc]
          rw [hstep]
          cases hco : sys.st.controller with
          | none => exact absurd (hiff.mp hco ▸ hmem) (List.not_mem_nil c)
          | some w =>
              have hwc : w ≠ c := fun hwc => hcc (hwc ▸ hco)
              have hwmem : w ∈ sys.st.active_connections.erase c :=
                (List.mem_erase_of_ne hwc).mpr (hctl w hco)
              refine ⟨hpwe, fun x hx => hfresh x (hsubset x hx), ?_, ?_⟩
              · intro v hv
                dsimp only at hv
                cases hv
                exact hwmem
              · dsimp only
                constructor
                · intro hcontra
                  cases hcontra
                · intro hcontra
                  rw [hcontra] at hwmem
                  exact absurd hwmem (List.not_mem_nil w)
      · have hstep : step sys (Op.disconnect c) = sys := by
          simp [step, disconnect_not_mem sys.st c hmem]
        rw [hstep]
        exact ⟨hpw, hfresh, hctl, hiff⟩

/-- The invariant holds after any operation sequence from process start. -/
theorem sysInv_run (ops : List Op) : SysInv (run ops) := by
  suffices hgen : ∀ sys, SysInv sys → SysInv (ops.foldl step sys) from
    hgen initSys sysInv_initSys
  induction ops with
  | nil => intro sys hs; exact hs
  | cons op rest ih =>
      intro sys hs
      exact ih (step sys op) (sysInv_step sys op hs)

/-! ## Claim theorems -/

/-- C1: after every sequence of connect/disconnect operations, the controller
reference, if set, is an element of the current connection list, and the
controller is `none` if and only if the connection list is empty. -/
theorem c1_controller_invariant (ops : List Op) :
    (∀ w, (run ops).st.controller = some w →
        w ∈ (run ops).st.active_connections) ∧
    ((run ops).st.controller = none ↔
        (run ops).st.active_connections = []) :=
  ⟨(sysInv_run ops).2.2.1, (sysInv_run ops).2.2.2⟩

/-- Witness for C1: after connecting two users, the controller (handle 0) is
registered. -/
theorem c1_controller_invariant_witness :
    (0 : Conn) ∈ (run [Op.connect "a", Op.connect "b"]).st.active_connections :=
  (c1_controller_invariant [Op.connect "a", Op.connect "b"]).1 0 (by decide)

/-- C2: a `SetColor` request from a non-controller, or with an unrecognized
color, leaves the state (in particular `current_color`) unchanged and sends
the `color_change` message to nobody. -/
theorem c2_rejected_setcolor_noop (ok : Conn → Bool) (s : State) (ws : Conn)
    (color : String)
    (h : s.controller ≠ some ws ∨ color ∉ valid_colors) :
    handle_color_change ok s ws color = (s, []) := by
  unfold handle_color_change
  rcases h with h | h
  · simp [h]
  · by_cases hc : s.controller = some ws <;> simp [hc, h]

/-- Witness for C2: a non-controller asking for "red" changes nothing. -/
theorem c2_rejected_setcolor_noop_witness :
    handle_color_change (fun _ => true) ⟨[0, 1], some 0, "none", some "a"⟩
      1 "red" = (⟨[0, 1], some 0, "none", some "a"⟩, []) :=
  c2_rejected_setcolor_noop (fun _ => true) ⟨[0, 1], some 0, "none", some "a"⟩
    1 "red" (Or.inl (by decide))

/-- C3 (failing evaluation): with registered connections `[0, 1, 2]`,
controller `0`, and the send to `0` failing, the accepted `SetColor "red"`
sets the color but never sends the `color_change` to connection `1`, which is
live and still registered afterwards: the removal of `0` mid-iteration makes
the loop skip over `1`, so only `2` receives the broadcast. -/
theorem c3_accepted_setcolor_skips_live_connection :
    (handle_color_change (fun c => c != 0)
        ⟨[0, 1, 2], some 0, "none", some "a"⟩ 0 "red").1.current_color =
      "red" ∧
    (1 : Conn) ∈ (handle_color_change (fun c => c != 0)
        ⟨[0, 1, 2], some 0, "none", some "a"⟩ 0 "red").1.active_connections ∧
    (1 : Conn) ∉ (handle_color_change (fun c => c != 0)
        ⟨[0, 1, 2], some 0, "none", some "a"⟩ 0 "red").2 ∧
    (handle_color_change (fun c => c != 0)
        ⟨[0, 1, 2], some 0, "none", some "a"⟩ 0 "red").2 = [2] := by
  decide

/-- C6 (failing evaluation): connect "alice" (handle 0, controller), connect
"bob" (handle 1), then disconnect "alice".  Handle 1 is promoted controller
and one connection remains, yet `controller_id` — reported by `get_status`
and carried by `user_update`/`state_update` — is `None`, because `disconnect`
clears it and never assigns the promoted connection's identity. -/
theorem c6_promoted_controller_id_null :
    (run [Op.connect "alice", Op.connect "bob", Op.disconnect 0]).st.controller
        = some 1 ∧
    (run [Op.connect "alice", Op.connect "bob",
        Op.disconnect 0]).st.active_connections = [1] ∧
    (get_status (run [Op.connect "alice", Op.connect "bob",
        Op.disconnect 0]).st).total_users = 1 ∧
    (get_status (run [Op.connect "alice", Op.connect "bob",
        Op.disconnect 0]).st).controller_id = none := by
  decide

/-- C7 (failing evaluation): broadcasting a color change over `[0, 1, 2]`
with the send to `0` failing removes `0` from `active_connections` (rather
than leaving it registered) and never attempts the send to `1` (the element
that slid into the removal index), so the failure does prevent a remaining
recipient from being served. -/
theorem c7_failed_send_removes_and_skips :
    (broadcast_color_change (fun c => c != 0)
        ⟨[0, 1, 2], some 0, "none", some "a"⟩ "red").2 = [2] ∧
    (0 : Conn) ∉ (broadcast_color_change (fun c => c != 0)
        ⟨[0, 1, 2], some 0, "none", some "a"⟩ "red").1.active_connections ∧
    (1 : Conn) ∈ (broadcast_color_change (fun c => c != 0)
        ⟨[0, 1, 2], some 0, "none", some "a"⟩ "red").1.active_connections ∧
    (1 : Conn) ∉ (broadcast_color_change (fun c => c != 0)
        ⟨[0, 1, 2], some 0, "none", some "a"⟩ "red").2 := by
  decide

/-- C10: an accepted `SetColor` assigns `current_color` before any send is
attempted, so for every send-outcome oracle — including one where every
single send fails — the color afterwards is the requested one, and
`get_status` reports it. -/
theorem c10_color_assigned_before_sends (ok : Conn → Bool) (s : State)
    (ws : Conn) (color : String) (h1 : s.controller = some ws)
    (h2 : color ∈ valid_colors) :
    (handle_color_change ok s ws color).1.current_color = color ∧
    (get_status (handle_color_change ok s ws color).1).current_color =
      color := by
  simp [handle_color_change, h1, h2, broadcast_color_change, get_status]

/-- Witness for C10: every send fails, yet the color and the status read
become "green". -/
theorem c10_color_assigned_before_sends_witness :
    (handle_color_change (fun _ => false) ⟨[0, 1], some 0, "none", some "a"⟩
        0 "green").1.current_color = "green" ∧
    (get_status (handle_color_change (fun _ => false)
        ⟨[0, 1], some 0, "none", some "a"⟩ 0 "green").1).current_color =
      "green" :=
  c10_color_assigned_before_sends (fun _ => false)
    ⟨[0, 1], some 0, "none", some "a"⟩ 0 "green" (by decide) (by decide)

/-- C4: when the current controller disconnects and a promotion happens, the
promoted connection is the minimum surviving handle — since `run` mints
handles in join order, that is the earliest-joined surviving connection. -/
theorem c4_promotes_earliest_joined (ops : List Op) (w : Conn)
    (h1 : (run ops).st.controller = some w)
    (h2 : (disconnect (run ops).st w).2 = true) :
    ∀ p, (disconnect (run ops).st w).1.controller = some p →
      p ∈ (run ops).st.active_connections.erase w ∧
      ∀ c ∈ (run ops).st.active_connections.erase w, p ≤ c := by
  obtain ⟨hpw, -, hctl, -⟩ := sysInv_run ops
  have hmem : w ∈ (run ops).st.active_connections := hctl w h1
  have hpwe : ((run ops).st.active_connections.erase w).Pairwise (· < ·) :=
    hpw.sublist (List.erase_sublist w _)
  rcases herase : (run ops).st.active_connections.erase w with _ | ⟨d, t⟩
  · simp [disconnect, hmem, h1, herase] at h2
  · have hdis : disconnect (run ops).st w =
        (State.mk (d :: t) (some d) (run ops).st.current_color none,
          true) := by
      simp [disconnect, hmem, h1, herase]
    intro p hp
    rw [hdis] at hp
    dsimp only at hp
    injection hp with hp
    subst hp
    have hpwdt : (d :: t).Pairwise (· < ·) := herase ▸ hpwe
    refine ⟨List.mem_cons_self d t, ?_⟩
    intro c hc
    rcases List.mem_cons.mp hc with rfl | hc
    · exact Nat.le_refl _
    · exact Nat.le_of_lt ((List.pairwise_cons.mp hpwdt).1 c hc)

/-- Witness for C4: three users join as 0, 1, 2; after controller 0 leaves,
the promoted connection 1 is indeed among the survivors (and, by the theorem,
minimal among them). -/
theorem c4_promotes_earliest_joined_witness :
    (1 : Conn) ∈ (run [Op.connect "a", Op.connect "b",
        Op.connect "c"]).st.active_connections.erase 0 :=
  ((c4_promotes_earliest_joined [Op.connect "a", Op.connect "b",
      Op.connect "c"] 0 (by decide) (by decide)) 1 (by decide)).1

/-- C5: when the disconnect of the controller promotes a new controller, the
disconnect handler sends the promoted connection a `state_update` with
`is_controller = true` and every other remaining connection a `state_update`
with `is_controller = false`. -/
theorem c5_promotion_role_messages (s : State) (w p : Conn)
    (h0 : w ∈ s.active_connections) (h1 : s.controller = some w)
    (hp : (on_ws_disconnect s w).1.controller = some p) :
    (p, Msg.stateUpdate (on_ws_disconnect s w).1.current_color true
        (on_ws_disconnect s w).1.controller_id) ∈ (on_ws_disconnect s w).2 ∧
    ∀ c ∈ (on_ws_disconnect s w).1.active_connections, c ≠ p →
      (c, Msg.stateUpdate (on_ws_disconnect s w).1.current_color false
          (on_ws_disconnect s w).1.controller_id) ∈
        (on_ws_disconnect s w).2 := by
  rcases herase : s.active_connections.erase w with _ | ⟨d, t⟩
  · have hnone : (on_ws_disconnect s w).1.controller = none := by
      simp [on_ws_disconnect, disconnect, h0, h1, herase]
    rw [hnone] at hp
    cases hp
  · have hdis : on_ws_disconnect s w =
        (State.mk (d :: t) (some d) s.current_color none,
          broadcast_new_controller
              (State.mk (d :: t) (some d) s.current_color none) ++
            broadcast_user_update
              (State.mk (d :: t) (some d) s.current_color none)) := by
      simp [on_ws_disconnect, disconnect, h0, h1, herase]
    rw [hdis] at hp
    dsimp only at hp
    injection hp with hp
    subst hp
    rw [hdis]
    dsimp only
    constructor
    · exact List.mem_append_left _
        (by simp [broadcast_new_controller, send_state_update])
    · intro c hc hcp
      refine List.mem_append_left _ ?_
      simp only [broadcast_new_controller, send_state_update]
      refine List.mem_cons_of_mem _ (List.mem_map.mpr ⟨c, ?_, rfl⟩)
      refine List.mem_filter.mpr ⟨hc, ?_⟩
      simpa using hcp

/-- Witness for C5: controller 0 leaves `[0, 1, 2]`; connection 1 receives
the `is_controller = true` snapshot and connection 2 the
`is_controller = false` one. -/
theorem c5_promotion_role_messages_witness :
    (1, Msg.stateUpdate "red" true none) ∈
      (on_ws_disconnect ⟨[0, 1, 2], some 0, "red", some "z"⟩ 0).2 ∧
    (2, Msg.stateUpdate "red" false none) ∈
      (on_ws_disconnect ⟨[0, 1, 2], some 0, "red", some "z"⟩ 0).2 :=
  ⟨(c5_promotion_role_messages ⟨[0, 1, 2], some 0, "red", some "z"⟩ 0 1
      (by decide) (by decide) (by decide)).1,
    (c5_promotion_role_messages ⟨[0, 1, 2], some 0, "red", some "z"⟩ 0 1
      (by decide) (by decide) (by decide)).2 2 (by decide) (by decide)⟩

/-- C8: disconnecting an unregistered connection is a complete no-op with no
promotion reported, and (states being duplicate-free) disconnecting the same
connection twice equals disconnecting it once. -/
theorem c8_disconnect_idempotent (ops : List Op) (c : Conn) :
    (c ∉ (run ops).st.active_connections →
        disconnect (run ops).st c = ((run ops).st, false)) ∧
    disconnect (disconnect (run ops).st c).1 c =
      ((disconnect (run ops).st c).1, false) := by
  obtain ⟨hpw, -, -, -⟩ := sysInv_run ops
  have hnd : (run ops).st.active_connections.Nodup :=
    hpw.imp fun h => Nat.ne_of_lt h
  refine ⟨disconnect_not_mem _ c, ?_⟩
  by_cases hmem : c ∈ (run ops).st.active_connections
  · have hnotmem : c ∉ (disconnect (run ops).st c).1.active_connections := by
      rw [disconnect_conns (run ops).st c hmem]
      exact hnd.not_mem_erase
    exact disconnect_not_mem _ c hnotmem
  · rw [disconnect_not_mem _ c hmem]
    exact disconnect_not_mem _ c hmem

/-- Witness for C8: with only handle 0 connected, disconnecting the absent
handle 5 changes nothing and reports no promotion. -/
theorem c8_disconnect_idempotent_witness :
    disconnect (run [Op.connect "a"]).st 5 =
      ((run [Op.connect "a"]).st, false) :=
  (c8_disconnect_idempotent [Op.connect "a"] 5).1 (by decide)

/-- Every `user_update` emitted by `broadcast_user_update` carries the
number of currently registered connections. -/
theorem bua_total (s : State) (c : Conn) (n : Nat) (cid : Option String)
    (h : (c, Msg.userUpdate n cid) ∈ broadcast_user_update s) :
    n = s.active_connections.length := by
  simp only [broadcast_user_update, List.mem_map, Prod.mk.injEq,
    Msg.userUpdate.injEq] at h
  obtain ⟨d, -, -, hn, -⟩ := h
  exact hn.symm

/-- `broadcast_user_update` reaches every registered connection. -/
theorem bua_mem (s : State) (c : Conn) (h : c ∈ s.active_connections) :
    (c, Msg.userUpdate s.active_connections.length s.controller_id) ∈
      broadcast_user_update s :=
  List.mem_map.mpr ⟨c, h, rfl⟩

/-- `broadcast_new_controller` emits only `state_update` messages. -/
theorem userUpdate_not_mem_bnc (s : State) (c : Conn) (n : Nat)
    (cid : Option String) :
    (c, Msg.userUpdate n cid) ∉ broadcast_new_controller s := by
  cases hco : s.controller with
  | none => simp [broadcast_new_controller, hco]
  | some ctrl => simp [broadcast_new_controller, hco, send_state_update]

/-- The messages emitted by `connect`: the joiner's `state_update` followed
by the `user_update` broadcast over the post-connect state. -/
theorem connect_snd (s : State) (ws : Conn) (uid : String) :
    (connect s ws uid).2.1 =
      send_state_update (connect s ws uid).1 ws (connect s ws uid).2.2 ::
        broadcast_user_update (connect s ws uid).1 := by
  by_cases hn : s.controller.isNone <;> simp [connect, hn]

/-- C9: every `user_update` message emitted by the connect and disconnect
flows carries `total_users` equal to the number of connections registered
immediately after the triggering operation, and every registered connection
is sent one. -/
theorem c9_user_update_total_users :
    (∀ (s : State) (ws : Conn) (uid : String) (c : Conn) (n : Nat)
        (cid : Option String),
        ((c, Msg.userUpdate n cid) ∈ (connect s ws uid).2.1 →
          n = (connect s ws uid).1.active_connections.length) ∧
        (c ∈ (connect s ws uid).1.active_connections →
          (c, Msg.userUpdate (connect s ws uid).1.active_connections.length
              (connect s ws uid).1.controller_id) ∈ (connect s ws uid).2.1)) ∧
    (∀ (s : State) (ws c : Conn) (n : Nat) (cid : Option String),
        ((c, Msg.userUpdate n cid) ∈ (on_ws_disconnect s ws).2 →
          n = (on_ws_disconnect s ws).1.active_connections.length) ∧
        (c ∈ (on_ws_disconnect s ws).1.active_connections →
          (c, Msg.userUpdate
              (on_ws_disconnect s ws).1.active_connections.length
              (on_ws_disconnect s ws).1.controller_id) ∈
            (on_ws_disconnect s ws).2)) := by
  constructor
  · intro s ws uid c n cid
    constructor
    · intro hmem
      rw [connect_snd] at hmem
      rcases List.mem_cons.mp hmem with heq | hmem2
      · exact absurd heq (by simp [send_state_update])
      · exact bua_total _ c n cid hmem2
    · intro hc
      rw [connect_snd]
      exact List.mem_cons_of_mem _ (bua_mem _ c hc)
  · intro s ws c n cid
    cases hb : (disconnect s ws).2 with
    | false =>
        have hmsgs : (on_ws_disconnect s ws).2 =
            broadcast_user_update (disconnect s ws).1 := by
          simp [on_ws_disconnect, hb]
        constructor
        · intro hmem
          rw [hmsgs] at hmem
          exact bua_total _ c n cid hmem
        · intro hc
          rw [hmsgs]
          exact bua_mem _ c hc
    | true =>
        have hmsgs : (on_ws_disconnect s ws).2 =
            broadcast_new_controller (disconnect s ws).1 ++
              broadcast_user_update (disconnect s ws).1 := by
          simp [on_ws_disconnect, hb]
        constructor
        · intro hmem
          rw [hmsgs] at hmem
          rcases List.mem_append.mp hmem with hmem1 | hmem2
          · exact absurd hmem1 (userUpdate_not_mem_bnc _ c n cid)
          · exact bua_total _ c n cid hmem2
        · intro hc
          rw [hmsgs]
          exact List.mem_append_right _ (bua_mem _ c hc)

/-- Witness for C9: user "b" joins handle-0's session as handle 1; the new
member receives `user_update` with `total_users = 2`. -/
theorem c9_user_update_total_users_witness :
    (1, Msg.userUpdate 2 (some "a")) ∈
      (connect ⟨[0], some 0, "none", some "a"⟩ 1 "b").2.1 :=
  (c9_user_update_total_users.1 ⟨[0], some 0, "none", some "a"⟩ 1 "b" 1 0
      none).2 (by decide)

/-- Success path of the fan-out loop: when every send succeeds, the list is
left unchanged and every connection from the current index onward is served
(in list order). -/
theorem broadcastLoopAux_all_ok (ok : Conn → Bool) :
    ∀ (fuel : Nat) (l : List Conn) (i : Nat),
      (∀ c ∈ l, ok c = true) → l.length ≤ fuel + i →
      broadcastLoopAux ok fuel l i = (l, l.drop i) := by
  intro fuel
  induction fuel with
  | zero =>
      intro l i hok hle
      have hdrop : l.drop i = [] := List.drop_eq_nil_of_le (by omega)
      simp [broadcastLoopAux, hdrop]
  | succ fuel ih =>
      intro l i hok hle
      by_cases h : i < l.length
      · have hc : ok l[i] = true := hok _ (l.get_mem i h)
        rw [show broadcastLoopAux ok (fuel + 1) l i =
            ((broadcastLoopAux ok fuel l (i + 1)).1,
              l.get ⟨i, h⟩ :: (broadcastLoopAux ok fuel l (i + 1)).2) from by
          simp [broadcastLoopAux, h, hc]]
        rw [ih l (i + 1) hok (by omega)]
        rw [List.drop_eq_getElem_cons h]
        simp
      · have hdrop : l.drop i = [] := List.drop_eq_nil_of_le (by omega)
        simp [broadcastLoopAux, h, hdrop]

/-- Success path of `broadcast_color_change`: with every send succeeding,
every registered connection stays registered and all of them are sent the
`color_change`, in registration order. -/
theorem broadcast_color_change_all_ok (ok : Conn → Bool) (s : State)
    (color : String) (hok : ∀ c ∈ s.active_connections, ok c = true) :
    broadcast_color_change ok s color =
      ({ s with current_color := color }, s.active_connections) := by
  simp [broadcast_color_change, broadcastLoop,
    broadcastLoopAux_all_ok ok s.active_connections.length
      s.active_connections 0 hok (by omega)]
